import Mathlib

/-!
# Verification of the Team-1280/electrical board-graph core

Shallow embedding of the core data structures and operations of the
repository: the freelist-backed stable-index container
(src/lib/util/freelist.hpp), the component/port model (src/lib/component.hpp,
src/lib/component.cpp), the wire-edge connection state machine and the
board-graph JSON load protocol (src/lib/lib.cpp), and the weak-reference
resource cache (src/lib/ser/store.cpp).

Modelling conventions:
* machine integers (std::uint32_t indices) are Nat with the explicit
  sentinel npos = 2^32 - 1;
* Length/Point coordinates are integer-valued (the claims use only + and =);
* std::shared_ptr / std::weak_ptr references between graph objects are
  represented by the id under which the object is stored in the owning
  dictionary of the BoardGraph (the arena+id representation); a weak
  reference is expired exactly when the id is absent from the dictionary;
* fallible C++ code is translated to the CppR result type below: a normal
  return carries the (possibly mutated) state, a thrown exception carries
  the state observable by a catch block at the point the exception escapes,
  an assertion failure / undefined behaviour is fault, and non-termination
  is hang.
-/

/-- Result of running a piece of C++ code against state σ producing α.
exn carries the state a catch block observes when the exception escapes. -/
inductive CppR (σ : Type) (α : Type) where
  | ok (s : σ) (val : α)
  | exn (s : σ) (msg : String)
  | fault
  | hang
deriving DecidableEq, Repr

/- ### Association-list model of the repository's Map alias
(std::unordered_map, src/lib/ser/ser.hpp). Claims do not depend on
iteration order, only on find/emplace/erase/insert_or_assign. -/

/-- Map::find, first entry with the given key. -/
def mfind? {κ α : Type} [DecidableEq κ] : List (κ × α) → κ → Option α
  | [], _ => none
  | (k, v) :: rest, key => if k = key then some v else mfind? rest key

/-- Map::emplace: inserts only when the key is absent. -/
def memplace {κ α : Type} [DecidableEq κ] (m : List (κ × α)) (k : κ) (v : α) :
    List (κ × α) :=
  if (mfind? m k).isSome then m else (k, v) :: m

/-- Assignment through an iterator at the given key (entry->second = v). -/
def msetKey {κ α : Type} [DecidableEq κ] : List (κ × α) → κ → α → List (κ × α)
  | [], _, _ => []
  | (k, v) :: rest, key, nv =>
    if k = key then (key, nv) :: rest else (k, v) :: msetKey rest key nv

/-- Map::erase by key. -/
def meraseKey {κ α : Type} [DecidableEq κ] : List (κ × α) → κ → List (κ × α)
  | [], _ => []
  | (k, v) :: rest, key =>
    if k = key then meraseKey rest key else (k, v) :: meraseKey rest key

/-- Map::insert_or_assign. -/
def minsertOrAssign {κ α : Type} [DecidableEq κ] (m : List (κ × α)) (k : κ) (v : α) :
    List (κ × α) :=
  if (mfind? m k).isSome then msetKey m k v else (k, v) :: m

theorem meraseKey_of_find?_none {κ α : Type} [DecidableEq κ]
    (m : List (κ × α)) (k : κ) (h : mfind? m k = none) : meraseKey m k = m := by
  induction m with
  | nil => rfl
  | cons hd tl ih =>
    obtain ⟨k', v'⟩ := hd
    by_cases hk : k' = k
    · simp [mfind?, hk] at h
    · simp [mfind?, hk] at h
      simp [meraseKey, hk, ih h]

theorem meraseKey_memplace_of_find?_none {κ α : Type} [DecidableEq κ]
    (m : List (κ × α)) (k : κ) (v : α) (h : mfind? m k = none) :
    meraseKey (memplace m k v) k = m := by
  simp [memplace, h, meraseKey, meraseKey_of_find?_none m k h]

/- ### FreeList (src/lib/util/freelist.hpp)
A slotted vector: every slot either holds a value or the index of the next
free slot, forming an intrusive free list. -/

/-- One slot of the FreeList backing vector: std::variant of T and
Next (the index of the next free slot). -/
inductive ListElem (T : Type) where
  | elem (val : T)
  | free (next : Nat)
deriving DecidableEq, Repr

/-- size_type npos: value reserved for an invalid index (uint32 max). -/
def npos : Nat := 4294967295

/-- FreeList: backing vector plus the index of the first free slot
(npos when no slot is free). -/
structure FreeList (T : Type) where
  vec : List (ListElem T)
  free : Nat
deriving DecidableEq, Repr

namespace FreeList

/-- FreeList::emplace. Reuses the head of the free list when one exists,
otherwise pushes at the back; returns the index of the added element.
(The source's debug assert(free_pos < this->size()) is compiled out in
release builds and is not part of the modelled semantics.) -/
def emplace {T : Type} (fl : FreeList T) (x : T) : CppR (FreeList T) Nat :=
  if fl.free ≠ npos then
    match fl.vec[fl.free]? with
    | some (.free nxt) =>
      .ok ⟨fl.vec.set fl.free (.elem x), nxt⟩ fl.free
    | some (.elem _) => .exn fl "bad_variant_access"
    | none => .fault
  else
    .ok ⟨fl.vec ++ [.elem x], npos⟩ fl.vec.length

/-- FreeList::erase. On an occupied slot, overwrite it with a Next pointing
at the old free head and make it the new head; on an already-freed slot the
visitor throws before any mutation, so the thrown state is the input. -/
def erase {T : Type} (fl : FreeList T) (pos : Nat) : CppR (FreeList T) Unit :=
  match fl.vec[pos]? with
  | some (.elem _) => .ok ⟨fl.vec.set pos (.free fl.free), pos⟩ ()
  | some (.free _) => .exn fl "Attempt to erase element from FreeList twice"
  | none => .fault

/-- FreeList::at. Accessing a freed slot throws bad_variant_access;
an out-of-range index is an assertion failure / undefined behaviour. -/
def atR {T : Type} (fl : FreeList T) (pos : Nat) : CppR (FreeList T) T :=
  match fl.vec[pos]? with
  | some (.elem v) => .ok fl v
  | some (.free _) => .exn fl "bad_variant_access"
  | none => .fault

end FreeList

/-- Whether a slot holds the free marker (the second visitor arm of the
iterator's operator++ / the _detail::Visitor in freelist.hpp). -/
def isFreeSlot {T : Type} : ListElem T → Bool
  | .elem _ => false
  | .free _ => true

/-- The loop body of FreeList::Iterator::operator++: starting from the
current raw position, advance while the current slot exists and is free.
Note the loop condition is tested on the CURRENT slot first, so a position
holding a value is a fixed point: the iterator never moves past it. -/
def skipFree {T : Type} (v : List (ListElem T)) (i : Nat) : Nat :=
  if h : i < v.length then
    if isFreeSlot v[i] then skipFree v (i + 1) else i
  else i
termination_by v.length - i
decreasing_by omega

/-- One application of operator++ to an iterator at raw position i
(the end iterator is at position v.length). -/
def itSucc {T : Type} (v : List (ListElem T)) (i : Nat) : Nat := skipFree v i

/-- A slot holding a value is a fixed point of the iterator step. -/
theorem skipFree_fixed_of_elem {T : Type} (v : List (ListElem T)) (i : Nat) (x : T)
    (h : v[i]? = some (.elem x)) : skipFree v i = i := by
  have hlt : i < v.length := by
    by_contra hge
    rw [List.getElem?_eq_none (by omega)] at h
    cases h
  have hv : v[i] = ListElem.elem x := by
    have he := List.getElem?_eq_getElem hlt
    rw [he] at h
    exact Option.some.inj h
  unfold skipFree
  simp [hlt, hv, isFreeSlot]

/- ### Claims about the FreeList (C4, C7, C9) -/

/-- Backing vector of a FreeList into which a single element was inserted:
one occupied slot, no free slot. -/
def oneElemVec : List (ListElem Nat) := [ListElem.elem 42]

/-- C4: the claim states that forward iteration from begin() to end()
terminates and visits exactly the occupied slots. In the source,
Iterator::operator++ only advances while the current slot is a free marker,
so an iterator standing on an occupied slot is a fixed point of the step
function and iteration over a non-empty FreeList never reaches end():
begin() sits at raw position 0 and every number of ++ applications leaves
it there, while end() is at position 1. -/
theorem freelist_iteration_never_reaches_end :
    ∀ n : Nat, (fun i => itSucc oneElemVec i)^[n] 0 ≠ oneElemVec.length := by
  have hfix : (fun i => itSucc oneElemVec i) 0 = 0 :=
    skipFree_fixed_of_elem oneElemVec 0 42 rfl
  intro n
  rw [Function.iterate_fixed hfix]
  decide

/-- C7: erasing an occupied slot k and then emplacing returns exactly the
freed index k (the freed slot is the new head of the free list, and emplace
pops that head), and every slot other than k holds the same contents after
the erase/emplace pair as before it. -/
theorem freelist_erase_then_emplace_reuses_index {T : Type}
    (fl : FreeList T) (k : Nat) (x y : T)
    (hk : fl.vec[k]? = some (.elem y))
    (hlen : fl.vec.length ≤ npos) :
    FreeList.erase fl k = .ok ⟨fl.vec.set k (.free fl.free), k⟩ () ∧
    FreeList.emplace ⟨fl.vec.set k (.free fl.free), k⟩ x =
      .ok ⟨fl.vec.set k (.elem x), fl.free⟩ k ∧
    ∀ j : Nat, j ≠ k → (fl.vec.set k (.elem x))[j]? = fl.vec[j]? := by
  have hklt : k < fl.vec.length := by
    by_contra hge
    rw [List.getElem?_eq_none (by omega)] at hk
    cases hk
  refine ⟨?_, ?_, ?_⟩
  · simp [FreeList.erase, hk]
  · have hkne : k ≠ npos := by omega
    have hset : (fl.vec.set k (ListElem.free fl.free))[k]? =
        some (ListElem.free fl.free) :=
      List.getElem?_set_eq_of_lt _ hklt
    simp [FreeList.emplace, hkne, hset, List.set_set]
  · intro j hj
    exact List.getElem?_set_ne (Ne.symm hj)

/-- Witness for C7 at a concrete input: the list [10, 20] with index 0
erased; the following emplace of 30 returns index 0 and slot 1 is
untouched. -/
theorem freelist_erase_then_emplace_reuses_index_witness :
    FreeList.erase ⟨[ListElem.elem 10, ListElem.elem 20], npos⟩ 0 =
      .ok ⟨[ListElem.free npos, ListElem.elem 20], 0⟩ () ∧
    FreeList.emplace ⟨[ListElem.free npos, ListElem.elem 20], 0⟩ (30 : Nat) =
      .ok ⟨[ListElem.elem 30, ListElem.elem 20], npos⟩ 0 ∧
    ∀ j : Nat, j ≠ 0 →
      ([ListElem.elem 30, ListElem.elem 20] : List (ListElem Nat))[j]? =
        ([ListElem.elem 10, ListElem.elem 20] : List (ListElem Nat))[j]? :=
  freelist_erase_then_emplace_reuses_index
    ⟨[ListElem.elem 10, ListElem.elem 20], npos⟩ 0 30 10 rfl (by decide)

/-- C9: calling erase on a slot that is already freed throws (the visitor's
fallback arm) and, because the exception escapes before any write, the list
observed by the catching code is exactly the list before the call. -/
theorem freelist_double_erase_throws {T : Type}
    (fl : FreeList T) (k : Nat) (nxt : Nat)
    (hk : fl.vec[k]? = some (.free nxt)) :
    FreeList.erase fl k = .exn fl "Attempt to erase element from FreeList twice" := by
  simp [FreeList.erase, hk]

/-- Witness for C9 at a concrete input: erase index 0 twice. The first
erase frees the slot; the second throws and leaves the list unchanged. -/
theorem freelist_double_erase_throws_witness :
    FreeList.erase ⟨[ListElem.free npos, ListElem.elem 20], 0⟩ 0 =
      .exn ⟨[ListElem.free npos, ListElem.elem (20 : Nat)], 0⟩
        "Attempt to erase element from FreeList twice" :=
  freelist_double_erase_throws ⟨[ListElem.free npos, ListElem.elem 20], 0⟩ 0 npos rfl

/- ### Geometry value types (src/lib/geom.hpp)
Length is modelled as an integer-valued coordinate; the claims use only
addition and equality of coordinates. -/

/-- A 2D point on the workspace plane. -/
structure Point where
  x : Int
  y : Int
deriving DecidableEq, Repr

instance : Add Point := ⟨fun a b => ⟨a.x + b.x, a.y + b.y⟩⟩

theorem Point.add_def (a b : Point) : a + b = ⟨a.x + b.x, a.y + b.y⟩ := rfl

/-- Axis-aligned bounding box (minimum and maximum corner). -/
structure AABB where
  min : Point
  max : Point
deriving DecidableEq, Repr

/- ### Component types and ports (src/lib/component.hpp, component.cpp) -/

/-- A connection point defined by a component type: offset position on the
footprint, display name, and id. -/
structure ConnectionPort where
  pt : Point
  name : String
  id : String
deriving DecidableEq, Repr

/-- An immutable component type: name, id, the StableIndexList of ports and
the footprint, of which the claims only use the derived bounding box
(Footprint::aabb()). -/
structure Component where
  name : String
  id : String
  ports : FreeList ConnectionPort
  fpAabb : AABB
deriving DecidableEq, Repr

/-- Outcome of std::find_if over the FreeList const iterators
(Component::get_port_idx / get_port by name). -/
inductive FindRes where
  | found (idx : Nat)
  | atEnd
  | threw
  | diverged
deriving DecidableEq, Repr

/-- The std::find_if loop over FreeList iterators: test the dereferenced
slot, and step with operator++ (skipFree) when the predicate fails.
Dereferencing a free slot throws bad_variant_access. The fuel argument only
serves Lean's totality: because skipFree fixes any occupied position, a run
that has not returned after the fuel below is exhausted repeats the same
position forever and truly diverges in the source. -/
def findIfAux {T : Type} (v : List (ListElem T)) (p : T → Bool) : Nat → Nat → FindRes
  | _, 0 => .diverged
  | i, fuel + 1 =>
    match v[i]? with
    | none => .atEnd
    | some (.free _) => .threw
    | some (.elem x) => if p x then .found i else findIfAux v p (skipFree v i) fuel

/-- std::find_if from begin() (raw position 0) to end(). -/
def findIfIdx {T : Type} (v : List (ListElem T)) (p : T → Bool) : FindRes :=
  findIfAux v p 0 (v.length + 2)

/-- Component::get_port_idx: find the index of the port whose id matches. -/
def Component.get_port_idx (c : Component) (pid : String) : FindRes :=
  findIfIdx c.ports.vec (fun port => port.id == pid)

/-- Component::get_port(ConnectionPortIdx): wraps m_ports.at(idx) in an
Optional. The Optional is engaged whenever at() returns, so a normal return
is always some; freed or out-of-range indices surface as the exception or
fault of FreeList::at, never as an empty Optional. -/
def Component.getPortR (c : Component) (idx : Nat) : CppR Unit (Option ConnectionPort) :=
  match FreeList.atR c.ports idx with
  | .ok _ p => .ok () (some p)
  | .exn _ m => .exn () m
  | .fault => .fault
  | .hang => .hang

/- ### The graph model (src/lib/wire.hpp, src/lib/lib.hpp) -/

/-- WireEdge::Side: the two ends of a wire. -/
inductive Side where
  | LEFT
  | RIGHT
deriving DecidableEq, Repr

/-- WireEdge::Connection. component is the weak node reference (none =
reset/empty). port and pos model the two members of the source's union:
port is meaningful while attached, pos while floating; the load and detach
code never reads the member that is not active. connector is the shared
Connector resource, by id (none = null reference). -/
structure Connection where
  component : Option String
  port : Nat
  pos : Point
  connector : Option String
deriving DecidableEq, Repr

/-- The private default constructor Connection(): empty weak reference and
zero-initialised port member (the pos value stands for the never-written
m_pos union member). -/
def Connection.mkDefault : Connection := ⟨none, 0, ⟨0, 0⟩, none⟩

/-- A wire edge: id and exactly two Connection endpoints (m_conns[0] and
m_conns[1]). User-drawn waypoints are not involved in any claim. -/
structure WireEdge where
  id : String
  conn0 : Connection
  conn1 : Connection
deriving DecidableEq, Repr

/-- WireEdge::side: fetch a wire end by side (LEFT = index 0). -/
def WireEdge.sideGet (e : WireEdge) (s : Side) : Connection :=
  match s with
  | .LEFT => e.conn0
  | .RIGHT => e.conn1

/-- Write a wire end by side. -/
def WireEdge.sideSet (e : WireEdge) (s : Side) (c : Connection) : WireEdge :=
  match s with
  | .LEFT => { e with conn0 := c }
  | .RIGHT => { e with conn1 := c }

/-- Write m_conns[i] for the raw loop index used by load_edge. -/
def WireEdge.connSetIdx (e : WireEdge) (i : Nat) (c : Connection) : WireEdge :=
  match i with
  | 0 => { e with conn0 := c }
  | _ => { e with conn1 := c }

/-- ComponentNode::EdgeConnection: strong reference to a wire (by edge id)
plus the side of that wire connected to this node. -/
structure EdgeConnection where
  edge : String
  side : Side
deriving DecidableEq, Repr

/-- A placed component instance. ty is the shared Ref to the component type
(none = the null reference of a default-constructed placeholder node);
edges is the port index → EdgeConnection map. -/
structure ComponentNode where
  ty : Option Component
  id : String
  name : String
  pos : Point
  aabb : AABB
  edges : List (Nat × EdgeConnection)
deriving DecidableEq, Repr

/-- The placeholder inserted by load_node: a default-constructed node
behind a fresh Ref. -/
def ComponentNode.mkDefault : ComponentNode :=
  ⟨none, "", "", ⟨0, 0⟩, ⟨⟨0, 0⟩, ⟨0, 0⟩⟩, []⟩

/-- BoardGraph: the id → node and id → edge dictionaries. An edge entry may
be the null placeholder Ref (none) while load_edge is populating it. -/
structure BoardGraph where
  nodes : List (String × ComponentNode)
  edges : List (String × Option WireEdge)
deriving DecidableEq, Repr

def BoardGraph.empty : BoardGraph := ⟨[], []⟩

/-- BoardGraph::get_node. -/
def BoardGraph.get_node (g : BoardGraph) (id : String) : Option ComponentNode :=
  mfind? g.nodes id

/-- BoardGraph::get_edge: returns the stored Ref (possibly the null
placeholder) when the id is present. -/
def BoardGraph.get_edge (g : BoardGraph) (id : String) : Option (Option WireEdge) :=
  mfind? g.edges id

/- ### Connection operations (src/lib/lib.cpp lines 15-81) -/

/-- WireEdge::Connection::detach on the connection at side s of edge eid.
When the weak node reference resolves (the connection is attached) the
source executes, in this order:
1. m_pos = component position + port offset - the port index m_port is
   read while it is still the active union member, then writing m_pos ends
   its lifetime (m_port and m_pos share one union);
2. remove_port(this->m_port) - this reads m_port AFTER the union has been
   overwritten by step 1: a read of an inactive union member, undefined
   behaviour, whose value in practice is the leading bytes of the Point
   just stored (the LengthUnit byte of its x coordinate plus padding),
   not the port index. The value of that read is modelled by the extra
   parameter punned, supplied by the environment and quantified over in
   the theorems below; remove_port erases the node's map entry under that
   key (erasing a key that is not present is a no-op of Map::erase);
3. m_component.reset() - the connection becomes floating.
On a floating connection the whole body is skipped (no-op). A
bad_variant_access from get_port(m_port) in step 1 escapes before any
mutation. -/
def detach (g : BoardGraph) (eid : String) (s : Side) (punned : Nat) :
    CppR BoardGraph Unit :=
  match mfind? g.edges eid with
  | none => .fault
  | some none => .fault
  | some (some e) =>
    let c := e.sideGet s
    match c.component with
    | none => .ok g ()
    | some nid =>
      match mfind? g.nodes nid with
      | none => .ok g ()
      | some node =>
        match node.ty with
        | none => .fault
        | some ty =>
          match FreeList.atR ty.ports c.port with
          | .exn _ m => .exn g m
          | .fault => .fault
          | .hang => .hang
          | .ok _ p =>
            let c' : Connection := { c with pos := node.pos + p.pt, component := none }
            let node' : ComponentNode := { node with edges := meraseKey node.edges punned }
            .ok { g with
                    nodes := msetKey g.nodes nid node',
                    edges := msetKey g.edges eid (some (e.sideSet s c')) } ()

/-- WireEdge::Connection::pos. When the weak node reference resolves (the
connection is not floating), the result is ONLY the port's offset point
stored on the ComponentType; the node's own position is not added. When
floating (reset or expired reference), the stored pos member is returned. -/
def Connection.posR (g : BoardGraph) (c : Connection) : CppR BoardGraph Point :=
  match c.component with
  | some nid =>
    match mfind? g.nodes nid with
    | none => .ok g c.pos
    | some node =>
      match node.ty with
      | none => .fault
      | some ty =>
        match FreeList.atR ty.ports c.port with
        | .ok _ p => .ok g p.pt
        | .exn _ m => .exn g m
        | .fault => .fault
        | .hang => .hang
  | none => .ok g c.pos

/-- ComponentNode::connnect_port on the node stored under nid. Looks the
port up on the node's type (an exception or fault from get_port propagates;
the empty-Optional early return of the source is kept although get_port
can never produce it), then try_emplace into the port map; when the slot is
occupied: without force return an empty result, with force detach the
existing connection first and then assign through the iterator obtained
before the detach - which the detach invalidated if it erased this node's
entry for this port, making the write undefined behaviour (fault). The
punned parameter is the oracle for the union read inside the forwarded
detach call (see detach); it is unused on every path that does not reach
detach. -/
def connnectPort (g : BoardGraph) (nid : String) (portIdx : Nat) (eid : String)
    (s : Side) (force : Bool) (punned : Nat) :
    CppR BoardGraph (Option EdgeConnection) :=
  match mfind? g.nodes nid with
  | none => .fault
  | some node =>
    match node.ty with
    | none => .fault
    | some ty =>
      match Component.getPortR ty portIdx with
      | .exn _ m => .exn g m
      | .fault => .fault
      | .hang => .hang
      | .ok _ none => .ok g none
      | .ok _ (some _) =>
        match mfind? node.edges portIdx with
        | none =>
          let node' : ComponentNode :=
            { node with edges := (portIdx, ⟨eid, s⟩) :: node.edges }
          .ok { g with nodes := msetKey g.nodes nid node' } (some ⟨eid, s⟩)
        | some ex =>
          if force then
            match detach g ex.edge ex.side punned with
            | .exn s' m => .exn s' m
            | .fault => .fault
            | .hang => .hang
            | .ok g1 _ =>
              match mfind? g1.nodes nid with
              | none => .fault
              | some node1 =>
                match mfind? node1.edges portIdx with
                | none => .fault
                | some _ =>
                  let node1' : ComponentNode :=
                    { node1 with edges := minsertOrAssign node1.edges portIdx ⟨eid, s⟩ }
                  .ok { g1 with nodes := msetKey g1.nodes nid node1' } (some ⟨eid, s⟩)
          else .ok g none

/- ### Helper lemmas on the map model -/

theorem mfind?_msetKey_self {κ α : Type} [DecidableEq κ]
    (m : List (κ × α)) (k : κ) (v : α) (hm : (mfind? m k).isSome) :
    mfind? (msetKey m k v) k = some v := by
  induction m with
  | nil => simp [mfind?] at hm
  | cons hd tl ih =>
    obtain ⟨k', v'⟩ := hd
    by_cases hk : k' = k
    · simp [msetKey, mfind?, hk]
    · simp [mfind?, hk] at hm
      simp [msetKey, mfind?, hk, ih hm]

theorem WireEdge.sideGet_sideSet (e : WireEdge) (s : Side) (c : Connection) :
    (e.sideSet s c).sideGet s = c := by
  cases s <;> rfl

theorem mfind?_meraseKey_ne {κ α : Type} [DecidableEq κ]
    (m : List (κ × α)) (k k' : κ) (h : k ≠ k') :
    mfind? (meraseKey m k) k' = mfind? m k' := by
  induction m with
  | nil => rfl
  | cons hd tl ih =>
    obtain ⟨k0, v0⟩ := hd
    by_cases h0 : k0 = k
    · subst h0
      have hk' : k0 ≠ k' := h
      simp [meraseKey, mfind?, hk', ih]
    · by_cases h1 : k0 = k'
      · subst h1
        simp [meraseKey, h0, mfind?]
      · simp [meraseKey, h0, mfind?, h1, ih]

/- ### Concrete fixtures shared by the witnesses below -/

/-- A concrete port with offset (1, 2). -/
def portP1 : ConnectionPort := ⟨⟨1, 2⟩, "port one", "p1"⟩

/-- A concrete component type with the single port p1 in slot 0. -/
def compT : Component := ⟨"TypeT", "T", ⟨[.elem portP1], npos⟩, ⟨⟨0, 0⟩, ⟨0, 0⟩⟩⟩

/-- A node of type compT placed at (10, 20) whose port 0 is wired to the
LEFT side of edge e1. -/
def nodeN1 : ComponentNode :=
  ⟨some compT, "n1", "node one", ⟨10, 20⟩, ⟨⟨10, 20⟩, ⟨10, 20⟩⟩,
    [(0, ⟨"e1", Side.LEFT⟩)]⟩

/-- An edge whose LEFT end is attached to n1's port 0 and whose RIGHT end
floats at (7, 8). -/
def edgeE1 : WireEdge :=
  ⟨"e1", ⟨some "n1", 0, ⟨0, 0⟩, some "c"⟩, ⟨none, 0, ⟨7, 8⟩, some "c"⟩⟩

/-- A graph holding exactly nodeN1 and edgeE1. -/
def graphG1 : BoardGraph := ⟨[("n1", nodeN1)], [("e1", some edgeE1)]⟩

/- ### Claim C5 (connnect_port) -/

/-- C5: the claim states that connnect_port on a port that does not exist
on the node's type returns an empty result without raising. In the source,
Component::get_port(idx) wraps m_ports.at(idx), which asserts/has undefined
behaviour for an out-of-range index (and throws bad_variant_access for a
freed slot); it can never produce the empty Optional the early-return
checks for. Evaluating the embedded code on a node whose type has the
single port slot 0 and asking for port index 1 yields the assertion
fault, not an ok result carrying none. (The trailing 0 is the union-read
oracle forwarded to detach, unused on this path, which faults before
reaching the try_emplace.) -/
theorem connnect_port_nonexistent_port_faults :
    connnectPort graphG1 "n1" 1 "e9" Side.LEFT false 0 = .fault := by
  rfl

/- ### Claim C6 (detach) -/

/-- C6: the claim states that detaching an attached connection stores the
node position plus the port offset as the new floating position AND
removes that port's entry from the node's edge map. The source does store
that position and does make the connection floating, but it reads the
port index for remove_port only AFTER the position write has overwritten
the union that holds it (lib.cpp lines 41-47): the key actually erased is
the unspecified result of reading an inactive union member - in practice
the leading bytes of the Point just stored, not the port index. For every
value punned that read may take other than the true index, the node's
entry for the detached port survives the detach: the position and
floating transition happen as claimed, the map removal does not. -/
theorem connection_detach_misses_port_map_entry
    (g : BoardGraph) (eid : String) (s : Side) (e : WireEdge) (nid : String)
    (node : ComponentNode) (ty : Component) (p : ConnectionPort)
    (ec : EdgeConnection) (punned : Nat)
    (h1 : mfind? g.edges eid = some (some e))
    (h2 : (e.sideGet s).component = some nid)
    (h3 : mfind? g.nodes nid = some node)
    (h4 : node.ty = some ty)
    (h5 : FreeList.atR ty.ports (e.sideGet s).port = .ok ty.ports p)
    (h6 : mfind? node.edges (e.sideGet s).port = some ec)
    (h7 : punned ≠ (e.sideGet s).port) :
    detach g eid s punned = .ok
      { g with
          nodes := msetKey g.nodes nid
            { node with edges := meraseKey node.edges punned },
          edges := msetKey g.edges eid
            (some (e.sideSet s
              { e.sideGet s with pos := node.pos + p.pt, component := none })) } () ∧
    mfind? (meraseKey node.edges punned) (e.sideGet s).port = some ec := by
  constructor
  · simp only [detach, h1, h2, h3, h4, h5]
  · rw [mfind?_meraseKey_ne node.edges punned (e.sideGet s).port h7]
    exact h6

/-- Witness for C6 at concrete inputs, with the union read yielding 3
(any value other than the true port index 0 behaves the same): the LEFT
end of e1 does float at (10, 20) + (1, 2) = (11, 22), but n1's port map
still holds the entry wiring port 0 to e1. -/
theorem connection_detach_misses_port_map_entry_witness :
    detach graphG1 "e1" Side.LEFT 3 = .ok
      ⟨[("n1", ⟨some compT, "n1", "node one", ⟨10, 20⟩, ⟨⟨10, 20⟩, ⟨10, 20⟩⟩,
          [(0, ⟨"e1", Side.LEFT⟩)]⟩)],
       [("e1", some ⟨"e1", ⟨none, 0, ⟨11, 22⟩, some "c"⟩,
          ⟨none, 0, ⟨7, 8⟩, some "c"⟩⟩)]⟩ () ∧
    mfind? (meraseKey nodeN1.edges 3) 0 = some ⟨"e1", Side.LEFT⟩ :=
  connection_detach_misses_port_map_entry graphG1 "e1" Side.LEFT edgeE1 "n1"
    nodeN1 compT portP1 ⟨"e1", Side.LEFT⟩ 3 rfl rfl rfl rfl rfl rfl (by decide)

/- ### Claim C10 (pos of an attached connection) -/

/-- C10: while the node weak reference resolves, Connection::pos returns
only the port offset stored on the ComponentType, without adding the node's
own position; after detach the same endpoint reports the node position plus
that offset, so the observed position changes across detach. The second
part is quantified over every value punned the undefined union read inside
detach may yield (see detach): whichever node-map key that read makes
remove_port erase, the position stored into the endpoint itself is
node.pos + p.pt and that is what pos() returns afterwards. -/
theorem connection_pos_ignores_node_position
    (g : BoardGraph) (eid : String) (s : Side) (e : WireEdge) (nid : String)
    (node : ComponentNode) (ty : Component) (p : ConnectionPort)
    (h1 : mfind? g.edges eid = some (some e))
    (h2 : (e.sideGet s).component = some nid)
    (h3 : mfind? g.nodes nid = some node)
    (h4 : node.ty = some ty)
    (h5 : FreeList.atR ty.ports (e.sideGet s).port = .ok ty.ports p) :
    Connection.posR g (e.sideGet s) = .ok g p.pt ∧
    (∀ (punned : Nat) (g' : BoardGraph) (e' : WireEdge),
       detach g eid s punned = .ok g' () →
       mfind? g'.edges eid = some (some e') →
       Connection.posR g' (e'.sideGet s) = .ok g' (node.pos + p.pt)) := by
  constructor
  · simp only [Connection.posR, h2, h3, h4, h5]
  · intro punned g' e' hd he
    have hdet : detach g eid s punned = .ok
        { g with
            nodes := msetKey g.nodes nid
              { node with edges := meraseKey node.edges punned },
            edges := msetKey g.edges eid
              (some (e.sideSet s
                { e.sideGet s with pos := node.pos + p.pt, component := none })) } () := by
      simp only [detach, h1, h2, h3, h4, h5]
    rw [hdet] at hd
    obtain ⟨hg, -⟩ := CppR.ok.inj hd.symm
    subst hg
    have hm : mfind? (msetKey g.edges eid
        (some (e.sideSet s
          { e.sideGet s with pos := node.pos + p.pt, component := none }))) eid =
        some (some (e.sideSet s
          { e.sideGet s with pos := node.pos + p.pt, component := none })) :=
      mfind?_msetKey_self g.edges eid _ (by rw [h1]; rfl)
    simp only [BoardGraph.edges] at he
    rw [hm] at he
    obtain he' := Option.some.inj (Option.some.inj he)
    subst he'
    rw [WireEdge.sideGet_sideSet]
    simp only [Connection.posR]

/-- Witness for C10 at concrete inputs: the attached LEFT end of e1
reports (1, 2) (bare port offset) before detach and (11, 22) (node
position plus offset) after it, whatever the punned union read yields. -/
theorem connection_pos_ignores_node_position_witness :
    Connection.posR graphG1 (edgeE1.sideGet Side.LEFT) = .ok graphG1 ⟨1, 2⟩ ∧
    (∀ (punned : Nat) (g' : BoardGraph) (e' : WireEdge),
       detach graphG1 "e1" Side.LEFT punned = .ok g' () →
       mfind? g'.edges "e1" = some (some e') →
       Connection.posR g' (e'.sideGet Side.LEFT) = .ok g' ⟨11, 22⟩) :=
  connection_pos_ignores_node_position graphG1 "e1" Side.LEFT edgeE1 "n1"
    nodeN1 compT portP1 rfl rfl rfl rfl rfl

/- ### The persisted graph document (spec section 6; read by
BoardGraph::from_json, load_node, load_edge in src/lib/lib.cpp).
The document is modelled already parsed; the exact json error strings the
source interpolates are abbreviated, keeping the identifying parts the
claims mention. -/

/-- One entry of a node's conns list: {port, edge, side}. -/
structure NodeConnJson where
  port : String
  edge : String
  side : Side
deriving DecidableEq, Repr

/-- One node entry: {name, type, pos, conns}. -/
structure NodeJson where
  name : String
  type : String
  pos : Point
  conns : List NodeConnJson
deriving DecidableEq, Repr

/-- One entry of an edge's conns list: either {connector, node, port},
or {connector, pos}, or any other shape (malformed). -/
inductive EdgeConnJson where
  | attached (connector : String) (node : String) (port : String)
  | floating (connector : String) (pos : Point)
  | malformed (connector : String)
deriving DecidableEq, Repr

/-- One edge entry: {conns}. -/
structure EdgeJson where
  conns : List EdgeConnJson
deriving DecidableEq, Repr

/-- The root document: the nodes and edges maps. -/
structure Doc where
  nodes : List (String × NodeJson)
  edges : List (String × EdgeJson)
deriving DecidableEq, Repr

/-- Resolution environment standing for the LazyResourceStore during a
graph load: which component-type ids and connector-type ids resolve.
none / false means try_get throws the wrapped ResourceLoadError. (The
cache mechanics of try_get_id are modelled separately for C8.) -/
structure Env where
  components : String → Option Component
  connectors : String → Bool

/-- The error text the resource store wraps a failed load in. -/
def resourceErr (tyName rid : String) : String :=
  "While loading " ++ tyName ++ " with id " ++ rid

/-- The wrapper load_node puts around any exception it catches. -/
def wrapNodeErr (id msg : String) : String :=
  "Failed to load graph node with ID " ++ id ++ ": " ++ msg

/-- The wrapper load_edge puts around any exception it catches. -/
def wrapEdgeErr (id msg : String) : String :=
  "Failed to load graph edge with ID " ++ id ++ ": " ++ msg

/-- The conns loop of load_node: resolve the named port on the node's type
(get_port_idx through the FreeList find_if), then resolve the named edge
with get_edge against the graph as it stands, then write the port map entry
(operator[] assignment). Any failure throws out of the loop. -/
def buildNodeConns (g : BoardGraph) (nodeId : String) (ty : Component) :
    List NodeConnJson → List (Nat × EdgeConnection) →
    CppR Unit (List (Nat × EdgeConnection))
  | [], m => .ok () m
  | cj :: rest, m =>
    match ty.get_port_idx cj.port with
    | .diverged => .hang
    | .threw => .exn () "bad_variant_access"
    | .atEnd => .exn () ("Component " ++ ty.id ++ " has no port with id " ++ cj.port)
    | .found pidx =>
      match BoardGraph.get_edge g cj.edge with
      | none => .exn () ("Node " ++ nodeId ++ " connects to nonexistent edge " ++ cj.edge)
      | some _ => buildNodeConns g nodeId ty rest (minsertOrAssign m pidx ⟨cj.edge, cj.side⟩)

/-- BoardGraph::load_node. No-op when the id is already present; otherwise
insert a placeholder entry, populate a fresh node from the document (name,
type via the resource store, position, bounding box = footprint box offset
by the position, and the conns list), and store it over the placeholder;
on any exception erase the placeholder and rethrow wrapped. -/
def loadNode (env : Env) (g : BoardGraph) (id : String) (root : Doc) :
    CppR BoardGraph Unit :=
  if (BoardGraph.get_node g id).isSome then .ok g ()
  else
    let g1 : BoardGraph := { g with nodes := memplace g.nodes id ComponentNode.mkDefault }
    match mfind? root.nodes id with
    | none =>
      .exn { g1 with nodes := meraseKey g1.nodes id } (wrapNodeErr id "json out_of_range")
    | some nj =>
      match env.components nj.type with
      | none =>
        .exn { g1 with nodes := meraseKey g1.nodes id }
          (wrapNodeErr id (resourceErr "Component" nj.type))
      | some ty =>
        match buildNodeConns g1 id ty nj.conns [] with
        | .hang => .hang
        | .fault => .fault
        | .exn _ m => .exn { g1 with nodes := meraseKey g1.nodes id } (wrapNodeErr id m)
        | .ok _ conns =>
          let node : ComponentNode :=
            { ty := some ty, id := id, name := nj.name, pos := nj.pos,
              aabb := ⟨ty.fpAabb.min + nj.pos, ty.fpAabb.max + nj.pos⟩,
              edges := conns }
          .ok { g1 with nodes := msetKey g1.nodes id node } ()

/-- Read m_conns[i] for the raw loop index used by load_edge. -/
def WireEdge.connGetIdx (e : WireEdge) (i : Nat) : Connection :=
  match i with
  | 0 => e.conn0
  | _ => e.conn1

/-- The connector id read first from every edge connection entry. -/
def connectorOf : EdgeConnJson → String
  | .attached c _ _ => c
  | .floating c _ => c
  | .malformed c => c

/-- One iteration of the load_edge conns loop body after the count check:
fetch the Connector resource, then dispatch on the entry's shape -
{node, port} resolves the node (get_node) and the named port on its type,
{pos} stores the floating position, anything else throws. -/
def connFromJson (g : BoardGraph) (env : Env) (edgeId : String) (c : Connection) :
    EdgeConnJson → CppR Unit Connection := fun cj =>
  let cid := connectorOf cj
  if env.connectors cid then
    let c1 : Connection := { c with connector := some cid }
    match cj with
    | .attached _ nid pname =>
      match BoardGraph.get_node g nid with
      | none => .exn () ("Edge " ++ edgeId ++ " connects to nonexistent node with " ++ nid)
      | some node =>
        match node.ty with
        | none => .fault
        | some ty =>
          match ty.get_port_idx pname with
          | .diverged => .hang
          | .threw => .exn () "bad_variant_access"
          | .atEnd => .exn () ("Component " ++ ty.id ++ " has no port with ID " ++ pname)
          | .found pidx => .ok () { c1 with component := some nid, port := pidx }
    | .floating _ p => .ok () { c1 with pos := p }
    | .malformed _ =>
      .exn () "Wire edge connection JSON must have either a pos field if the edge is floating or a node and port ID field"
  else .exn () (resourceErr "Connector" cid)

/-- The load_edge conns loop: the running index is checked against 2 at
the top of each iteration (more than two entries throw), and each processed
entry is written into m_conns[i]. Note there is no check that at least two
entries were present once the loop ends. -/
def buildEdgeConns (g : BoardGraph) (env : Env) (edgeId : String) :
    Nat → WireEdge → List EdgeConnJson → CppR Unit WireEdge
  | _, e, [] => .ok () e
  | i, e, cj :: rest =>
    if i ≥ 2 then .exn () "Too many connections for edge, must have exactly two"
    else
      match connFromJson g env edgeId (e.connGetIdx i) cj with
      | .exn _ m => .exn () m
      | .fault => .fault
      | .hang => .hang
      | .ok _ c' => buildEdgeConns g env edgeId (i + 1) (e.connSetIdx i c') rest

/-- BoardGraph::load_edge. No-op when the id is already present; otherwise
insert the null placeholder Ref, populate a fresh two-ended edge from the
document, and store it over the placeholder; on any exception erase the
placeholder and rethrow wrapped. -/
def loadEdge (env : Env) (g : BoardGraph) (id : String) (root : Doc) :
    CppR BoardGraph Unit :=
  if (BoardGraph.get_edge g id).isSome then .ok g ()
  else
    let g1 : BoardGraph := { g with edges := memplace g.edges id none }
    match mfind? root.edges id with
    | none =>
      .exn { g1 with edges := meraseKey g1.edges id } (wrapEdgeErr id "json out_of_range")
    | some ej =>
      let e0 : WireEdge := ⟨id, Connection.mkDefault, Connection.mkDefault⟩
      match buildEdgeConns g1 env id 0 e0 ej.conns with
      | .hang => .hang
      | .fault => .fault
      | .exn _ m => .exn { g1 with edges := meraseKey g1.edges id } (wrapEdgeErr id m)
      | .ok _ e => .ok { g1 with edges := msetKey g1.edges id (some e) } ()

/-- Run a load step over a list of document keys, aborting on the first
exception, fault or divergence (the loops of BoardGraph::from_json). -/
def runSteps (step : BoardGraph → String → CppR BoardGraph Unit) :
    BoardGraph → List String → CppR BoardGraph Unit
  | g, [] => .ok g ()
  | g, id :: rest =>
    match step g id with
    | .ok g' _ => runSteps step g' rest
    | .exn s m => .exn s m
    | .fault => .fault
    | .hang => .hang

/-- BoardGraph::from_json: load every node named in the nodes section, then
every edge named in the edges section. -/
def fromJson (env : Env) (g : BoardGraph) (root : Doc) : CppR BoardGraph Unit :=
  match runSteps (fun g' id => loadNode env g' id root) g (root.nodes.map Prod.fst) with
  | .ok g1 _ => runSteps (fun g' id => loadEdge env g' id root) g1 (root.edges.map Prod.fst)
  | r => r

/- ### Concrete load fixtures -/

/-- Resolution environment: component type id T resolves to compT, the
connector type id c resolves; everything else fails to load. -/
def envA : Env := ⟨fun t => if t == "T" then some compT else none, fun c => c == "c"⟩

/-- C1's document: one node n1 of type T (whose port p1 is in slot 0) wired
to edge e1 on port p1, and one edge e1 connecting {n1, p1} to a floating
point - exactly the shape BoardGraph::to_json emits for such a graph. -/
def docC1 : Doc :=
  ⟨[("n1", ⟨"node one", "T", ⟨5, 5⟩, [⟨"p1", "e1", Side.LEFT⟩]⟩)],
   [("e1", ⟨[.attached "c" "n1" "p1", .floating "c" ⟨9, 9⟩]⟩)]⟩

/- ### Claim C1 (from_json load order) -/

/-- C1: the claim states that loading this document succeeds and wires
n1.port(p1) to e1. In the source, from_json loads every node before any
edge, while load_node resolves each entry of the node's conns list with
get_edge against the graph as it stands - so n1's reference to e1 is
resolved when the edge dictionary is still empty, the lookup fails, the
node placeholder is rolled back and the whole load aborts with the
wrapped nonexistent-edge error instead of succeeding. -/
theorem from_json_fails_on_node_edge_reference :
    fromJson envA BoardGraph.empty docC1 =
      .exn BoardGraph.empty (wrapNodeErr "n1" "Node n1 connects to nonexistent edge e1") := by
  rfl

/- ### Claim C2 (load_edge rollback on nonexistent node) -/

/-- Processing a conns prefix that succeeds continues into the appended
entries at the incremented index with the partially filled edge. -/
theorem buildEdgeConns_append_ok (g : BoardGraph) (env : Env) (eid : String)
    (l1 l2 : List EdgeConnJson) :
    ∀ (i : Nat) (e e' : WireEdge),
      buildEdgeConns g env eid i e l1 = .ok () e' →
      buildEdgeConns g env eid i e (l1 ++ l2) =
        buildEdgeConns g env eid (i + l1.length) e' l2 := by
  induction l1 with
  | nil =>
    intro i e e' h
    simp [buildEdgeConns] at h
    subst h
    simp
  | cons c t ih =>
    intro i e e' h
    rw [List.cons_append]
    unfold buildEdgeConns at h
    conv_lhs => rw [buildEdgeConns]
    by_cases hi : i ≥ 2
    · rw [if_pos hi] at h
      simp at h
    · rw [if_neg hi] at h
      rw [if_neg hi]
      cases hcf : connFromJson g env eid (e.connGetIdx i) c with
      | ok u c' =>
        rw [hcf] at h
        have hlen : i + (c :: t).length = (i + 1) + t.length := by
          simp only [List.length_cons]
          omega
        rw [hlen]
        exact ih (i + 1) (e.connSetIdx i c') e' h
      | exn u m => rw [hcf] at h; simp at h
      | fault => rw [hcf] at h; simp at h
      | hang => rw [hcf] at h; simp at h

/-- Processing a conns prefix that throws makes the whole list throw the
same exception. -/
theorem buildEdgeConns_append_exn (g : BoardGraph) (env : Env) (eid : String)
    (l1 l2 : List EdgeConnJson) :
    ∀ (i : Nat) (e : WireEdge) (m : String),
      buildEdgeConns g env eid i e l1 = .exn () m →
      buildEdgeConns g env eid i e (l1 ++ l2) = .exn () m := by
  induction l1 with
  | nil =>
    intro i e m h
    simp [buildEdgeConns] at h
  | cons c t ih =>
    intro i e m h
    rw [List.cons_append]
    unfold buildEdgeConns at h ⊢
    by_cases hi : i ≥ 2
    · rw [if_pos hi] at h ⊢
      exact h
    · rw [if_neg hi] at h ⊢
      cases hcf : connFromJson g env eid (e.connGetIdx i) c with
      | ok u c' =>
        rw [hcf] at h
        exact ih (i + 1) (e.connSetIdx i c') m h
      | exn u m' =>
        rw [hcf] at h
        exact h
      | fault => rw [hcf] at h; simp at h
      | hang => rw [hcf] at h; simp at h

/-- C2: for every document in which an edge entry's conns list contains -
at any position - a connection naming a node id absent from the graph,
load_edge fails with a hard propagated error wrapped with the edge id, and
because the exception handler erases the placeholder it had just inserted,
the graph the catching code observes is exactly the input graph: the edge
id is not present in the edge dictionary. When the offending entry is
reached with a resolvable connector, the error is exactly the
nonexistent-node message (second conjunct); entries before it that throw
for other reasons, an offender in third-or-later position (pre-empted by
the too-many-connections check), or an unresolvable connector on the
offender still abort the load with the wrapped error and the same rollback
(first conjunct). The two side hypotheses only exclude executions that a
DIFFERENT defect pre-empts before any failure: an earlier entry that makes
the conns loop diverge inside the broken FreeList find_if (claim C4's bug)
or dereference a placeholder node. -/
theorem load_edge_nonexistent_node_rolls_back
    (env : Env) (g : BoardGraph) (id : String) (root : Doc) (ej : EdgeJson)
    (pre rest : List EdgeConnJson) (cid nid pname : String)
    (hno : BoardGraph.get_edge g id = none)
    (hdoc : mfind? root.edges id = some ej)
    (hsplit : ej.conns = pre ++ EdgeConnJson.attached cid nid pname :: rest)
    (hnode : BoardGraph.get_node g nid = none)
    (hnofault : buildEdgeConns { g with edges := memplace g.edges id none } env id 0
        ⟨id, Connection.mkDefault, Connection.mkDefault⟩ pre ≠ .fault)
    (hnohang : buildEdgeConns { g with edges := memplace g.edges id none } env id 0
        ⟨id, Connection.mkDefault, Connection.mkDefault⟩ pre ≠ .hang) :
    (∃ m, loadEdge env g id root = .exn g (wrapEdgeErr id m)) ∧
    (∀ e1, pre.length < 2 →
       buildEdgeConns { g with edges := memplace g.edges id none } env id 0
         ⟨id, Connection.mkDefault, Connection.mkDefault⟩ pre = .ok () e1 →
       env.connectors cid = true →
       loadEdge env g id root =
         .exn g (wrapEdgeErr id
           ("Edge " ++ id ++ " connects to nonexistent node with " ++ nid))) ∧
    BoardGraph.get_edge g id = none := by
  have hno' : mfind? g.edges id = none := hno
  have hnode' : mfind? g.nodes nid = none := hnode
  have herase : meraseKey (memplace g.edges id (none : Option WireEdge)) id = g.edges :=
    meraseKey_memplace_of_find?_none g.edges id none hno'
  have hthrow : ∀ m0,
      buildEdgeConns { g with edges := memplace g.edges id none } env id 0
        ⟨id, Connection.mkDefault, Connection.mkDefault⟩ ej.conns = .exn () m0 →
      loadEdge env g id root = .exn g (wrapEdgeErr id m0) := by
    intro m0 hm0
    simp [loadEdge, BoardGraph.get_edge, hno', hdoc, hm0, herase]
  cases hB : buildEdgeConns { g with edges := memplace g.edges id none } env id 0
      ⟨id, Connection.mkDefault, Connection.mkDefault⟩ pre with
  | ok u e1 =>
    cases u
    have hfull := buildEdgeConns_append_ok { g with edges := memplace g.edges id none }
      env id pre (EdgeConnJson.attached cid nid pname :: rest) 0
      ⟨id, Connection.mkDefault, Connection.mkDefault⟩ e1 hB
    rw [← hsplit] at hfull
    by_cases hlen : pre.length ≥ 2
    · have hoff : buildEdgeConns { g with edges := memplace g.edges id none } env id
          (0 + pre.length) e1 (EdgeConnJson.attached cid nid pname :: rest) =
          .exn () "Too many connections for edge, must have exactly two" := by
        unfold buildEdgeConns
        rw [if_pos (by omega)]
      refine ⟨⟨_, hthrow _ (hfull.trans hoff)⟩, ?_, hno⟩
      intro e1' hl2 _ _
      exact absurd hlen (by omega)
    · by_cases hcid : env.connectors cid = true
      · have hoff : buildEdgeConns { g with edges := memplace g.edges id none } env id
            (0 + pre.length) e1 (EdgeConnJson.attached cid nid pname :: rest) =
            .exn () ("Edge " ++ id ++ " connects to nonexistent node with " ++ nid) := by
          unfold buildEdgeConns
          rw [if_neg (by omega)]
          simp [connFromJson, connectorOf, hcid, BoardGraph.get_node, hnode']
        refine ⟨⟨_, hthrow _ (hfull.trans hoff)⟩, ?_, hno⟩
        intro e1' hl2 hok hcid'
        exact hthrow _ (hfull.trans hoff)
      · have hcidf : env.connectors cid = false := by
          cases hcf : env.connectors cid
          · rfl
          · exact absurd hcf hcid
        have hoff : buildEdgeConns { g with edges := memplace g.edges id none } env id
            (0 + pre.length) e1 (EdgeConnJson.attached cid nid pname :: rest) =
            .exn () (resourceErr "Connector" cid) := by
          unfold buildEdgeConns
          rw [if_neg (by omega)]
          simp [connFromJson, connectorOf, hcidf]
        refine ⟨⟨_, hthrow _ (hfull.trans hoff)⟩, ?_, hno⟩
        intro e1' hl2 hok hcid'
        exact absurd hcid' hcid
  | exn u m =>
    cases u
    have hfull := buildEdgeConns_append_exn { g with edges := memplace g.edges id none }
      env id pre (EdgeConnJson.attached cid nid pname :: rest) 0
      ⟨id, Connection.mkDefault, Connection.mkDefault⟩ m hB
    rw [← hsplit] at hfull
    refine ⟨⟨m, hthrow m hfull⟩, ?_, hno⟩
    intro e1' hl2 hok hcid'
    simp at hok
  | fault => exact absurd hB hnofault
  | hang => exact absurd hB hnohang

/-- C2's witness document: the SECOND connection of edge e1 references the
absent node nx (the first is floating and processes fine). -/
def docC2 : Doc := ⟨[], [("e1", ⟨[.floating "c" ⟨0, 0⟩, .attached "c" "nx" "p1"]⟩)]⟩

/-- Witness for C2 at concrete inputs: loading e1 from docC2 into the empty
graph fails with the wrapped nonexistent-node error and leaves the edge
dictionary without e1, with the offending connection in second position. -/
theorem load_edge_nonexistent_node_rolls_back_witness :
    (∃ m, loadEdge envA BoardGraph.empty "e1" docC2 =
       .exn BoardGraph.empty (wrapEdgeErr "e1" m)) ∧
    (∀ e1, ([EdgeConnJson.floating "c" ⟨0, 0⟩] : List EdgeConnJson).length < 2 →
       buildEdgeConns ⟨[], [("e1", none)]⟩ envA "e1" 0
         ⟨"e1", Connection.mkDefault, Connection.mkDefault⟩
         [EdgeConnJson.floating "c" ⟨0, 0⟩] = .ok () e1 →
       envA.connectors "c" = true →
       loadEdge envA BoardGraph.empty "e1" docC2 =
         .exn BoardGraph.empty
           (wrapEdgeErr "e1"
             ("Edge " ++ "e1" ++ " connects to nonexistent node with " ++ "nx"))) ∧
    BoardGraph.get_edge BoardGraph.empty "e1" = none :=
  load_edge_nonexistent_node_rolls_back envA BoardGraph.empty "e1" docC2
    ⟨[.floating "c" ⟨0, 0⟩, .attached "c" "nx" "p1"]⟩
    [.floating "c" ⟨0, 0⟩] [] "c" "nx" "p1"
    rfl rfl rfl rfl (by decide) (by decide)

/- ### Claim C3 (exactly-two connection check) -/

/-- C3's document: edge e2 has a single connection entry, edge e3 has
three. -/
def docC3 : Doc :=
  ⟨[], [("e2", ⟨[.floating "c" ⟨3, 4⟩]⟩),
        ("e3", ⟨[.floating "c" ⟨0, 0⟩, .floating "c" ⟨1, 1⟩, .floating "c" ⟨2, 2⟩]⟩)]⟩

/-- C3: the claim states that a conns list without exactly two entries -
more OR fewer - raises a structural error and the edge is not added. The
source checks the running index only against the upper bound, so the
three-entry edge e3 does throw (and rolls back), but the one-entry edge e2
loads successfully: it is stored in the edge dictionary with the second
endpoint left as the default-constructed connection, despite the source's
own error text saying an edge must have exactly two connections. -/
theorem load_edge_accepts_fewer_than_two_conns :
    loadEdge envA BoardGraph.empty "e2" docC3 =
      .ok ⟨[], [("e2", some ⟨"e2", ⟨none, 0, ⟨3, 4⟩, some "c"⟩, Connection.mkDefault⟩)]⟩ () ∧
    loadEdge envA BoardGraph.empty "e3" docC3 =
      .exn BoardGraph.empty (wrapEdgeErr "e3" "Too many connections for edge, must have exactly two") := by
  exact ⟨rfl, rfl⟩

/- ### LazyResourceStore::try_get_id (src/lib/ser/store.cpp) for C8.
The slot of one registered type. Loaded objects are identified by
allocation tokens; the alive predicate says which tokens still have a
strong holder (a token is the model of referential identity: locking a
live weak reference yields the same token, a reload yields a fresh one). -/

/-- The cache state of one Slot: id → weak reference (none stands for the
empty WeakRef written before the loader runs), a fresh-allocation counter,
and the number of resource files read so far. -/
structure Slot where
  cache : List (String × Option Nat)
  nextTok : Nat
  loads : Nat
deriving DecidableEq, Repr

/-- try_get_id for a registered type: look the id up in the slot's weak
cache; when the entry exists and has not expired, return the locked strong
handle without touching the filesystem. Otherwise read and parse the
resource file (counted by loads), insert the empty weak entry, run the
loader, store a weak reference to the fresh object, and return it. -/
def tryGetId (s : Slot) (alive : Nat → Bool) (id : String) : CppR Slot Nat :=
  let loadFresh : CppR Slot Nat :=
    .ok { cache := minsertOrAssign (minsertOrAssign s.cache id none) id (some s.nextTok),
          nextTok := s.nextTok + 1,
          loads := s.loads + 1 } s.nextTok
  match mfind? s.cache id with
  | some (some tok) => if alive tok then .ok s tok else loadFresh
  | some none => loadFresh
  | none => loadFresh

theorem mfind?_minsertOrAssign_self {κ α : Type} [DecidableEq κ]
    (m : List (κ × α)) (k : κ) (v : α) :
    mfind? (minsertOrAssign m k v) k = some v := by
  unfold minsertOrAssign
  by_cases h : (mfind? m k).isSome
  · simp [h, mfind?_msetKey_self m k v h]
  · simp [h, mfind?]

/- ### Claim C8 (cache identity while held, reload once dropped) -/

/-- C8: while the object a cache entry weakly references is still strongly
held, a second try_get for the same id returns the identical underlying
object (the same token) with the slot unchanged - in particular no file is
read; once every strong handle is gone (the weak reference is expired), the
next try_get performs a fresh load from disk: the read counter increases by
one and a freshly allocated object is returned and cached. -/
theorem resource_cache_identity_and_reload :
    (∀ (s : Slot) (alive : Nat → Bool) (id : String) (tok : Nat),
       mfind? s.cache id = some (some tok) → alive tok = true →
       tryGetId s alive id = .ok s tok) ∧
    (∀ (s : Slot) (alive : Nat → Bool) (id : String) (tok : Nat),
       mfind? s.cache id = some (some tok) → alive tok = false →
       ∃ s', tryGetId s alive id = .ok s' s.nextTok ∧
         s'.loads = s.loads + 1 ∧
         mfind? s'.cache id = some (some s.nextTok)) := by
  constructor
  · intro s alive id tok hc ha
    simp [tryGetId, hc, ha]
  · intro s alive id tok hc ha
    refine ⟨{ cache := minsertOrAssign (minsertOrAssign s.cache id none) id (some s.nextTok),
              nextTok := s.nextTok + 1, loads := s.loads + 1 }, ?_, rfl, ?_⟩
    · simp [tryGetId, hc, ha]
    · exact mfind?_minsertOrAssign_self _ id (some s.nextTok)

/-- Witness for C8 at a concrete slot: id x cached as token 7 after 3
loads. While 7 is alive the same token 7 comes back with the slot
untouched; with no strong holder left, the next try_get returns the fresh
token 8 and the load count rises to 4. -/
theorem resource_cache_identity_and_reload_witness :
    tryGetId ⟨[("x", some 7)], 8, 3⟩ (fun t => t == 7) "x" =
      .ok ⟨[("x", some 7)], 8, 3⟩ 7 ∧
    (∃ s', tryGetId ⟨[("x", some 7)], 8, 3⟩ (fun _ => false) "x" = .ok s' 8 ∧
       s'.loads = 4 ∧ mfind? s'.cache "x" = some (some 8)) :=
  ⟨resource_cache_identity_and_reload.1 ⟨[("x", some 7)], 8, 3⟩ (fun t => t == 7) "x" 7 rfl rfl,
   resource_cache_identity_and_reload.2 ⟨[("x", some 7)], 8, 3⟩ (fun _ => false) "x" 7 rfl rfl⟩
